import Mathlib

/-
Verification of the anomaly/risk monitoring pipeline of the trading-coach
backend (`backend-new`).

Embedding conventions:
* Python floats are modelled as rationals (ℚ).  All numeric literals of the
  source (`0.05`, `2.5`, ...) are written as exact fractions.
* The source compares the z-score `z = |current - mean| / stdev` (with
  `stdev = sqrt(variance)`) against nonnegative thresholds `t`.  Since
  `z ≥ t ↔ z² ≥ t²` for `t ≥ 0`, the embedding works with the squares
  `z² = (current - mean)² / variance` and `t²` throughout, which keeps all
  quantities rational.  `stdev > 0` is equivalently `variance > 0`.
* The per-metric entries of the Python dicts `metric_history` and
  `last_anomaly_time` are independent of each other; the embedding models the
  state attached to one metric name (`MetricState`).  `history = none` models
  the metric name being absent from `metric_history`.
* `datetime` instants are modelled as rational timestamps in seconds;
  `(a - b).total_seconds()` becomes subtraction in ℚ.
* Samples store a value and a timestamp in the source; the timestamp of a
  sample is never read by any code path, so histories are lists of values.
* Python `int(x)` (truncation toward zero) is `pyInt` below.
-/

/-- Behaviour of `collections.deque(maxlen := w).append`: the new element goes
to the right, and elements fall off the left so that at most `w` remain. -/
def dequeAppend (w : Nat) (l : List ℚ) (v : ℚ) : List ℚ :=
  (l ++ [v]).drop (l.length + 1 - w)

/-- State attached to one metric name inside `AnomalyMonitor`: its entry in
`metric_history` (`none` when the key is absent) and its entry in
`last_anomaly_time`. -/
structure MetricState where
  history : Option (List ℚ)
  last_anomaly_time : Option ℚ
deriving DecidableEq

/-- `AnomalyMonitor.add_metric_value` restricted to one metric: create the
deque on first use, then append with the `window_size` bound `w`. -/
def add_metric_value (w : Nat) (hist : Option (List ℚ)) (v : ℚ) : Option (List ℚ) :=
  match hist with
  | none => some (dequeAppend w [] v)
  | some l => some (dequeAppend w l v)

/-- The rolling window currently stored for a metric (empty when the metric
was never observed). -/
def historyValues (hist : Option (List ℚ)) : List ℚ := hist.getD []

/-- Record a whole sequence of samples for one metric, in order. -/
def recordMany (w : Nat) (hist : Option (List ℚ)) (vs : List ℚ) : Option (List ℚ) :=
  vs.foldl (add_metric_value w) hist

/-- Default `window_size` of `AnomalyMonitor.__init__`. -/
def window_size : Nat := 10

/-- Default `anomaly_cooldown_seconds` of `AnomalyMonitor.__init__`. -/
def anomaly_cooldown_seconds : ℚ := 60

/-- Square of the default `z_score_threshold` (2.5) of `AnomalyMonitor`. -/
def z_score_threshold_sq : ℚ := (5/2)^2

/-- `statistics.mean` on the stored window. -/
def listMean (l : List ℚ) : ℚ := l.sum / (l.length : ℚ)

/-- Square of `statistics.stdev` (sample standard deviation, denominator
`n - 1`) on the stored window. -/
def sampleVar (l : List ℚ) : ℚ :=
  (l.map (fun x => (x - listMean l)^2)).sum / ((l.length : ℚ) - 1)

/-- Cooldown test of `detect_anomalies`: a prior anomaly exists and happened
less than `anomaly_cooldown_seconds` ago. -/
def inCooldown (last : Option ℚ) (now : ℚ) : Bool :=
  match last with
  | none => false
  | some t => decide (now - t < anomaly_cooldown_seconds)

/-- The anomaly record built by `detect_anomalies`.  `z_score_sq` and
`baseline_var` are the squares of the float fields `z_score` and
`baseline_std` of the source dict; the remaining fields are verbatim. -/
structure Anomaly where
  metric : String
  current_value : ℚ
  anomaly_type : String
  severity : String
  z_score_sq : Option ℚ
  baseline_mean : Option ℚ
  baseline_var : Option ℚ
  previous_value : Option ℚ
  rate_of_change : Option ℚ
deriving DecidableEq

/-- Severity ladder of detection method 1 (`z ≥ 4 → high`, `z ≥ 3 → high`,
`z ≥ 2.5 → medium`), phrased on the squared z-score. -/
def outlierSeverity (zsq : ℚ) : String :=
  if 4^2 ≤ zsq then "high"
  else if 3^2 ≤ zsq then "high"
  else if (5/2)^2 ≤ zsq then "medium"
  else "low"

/-- Detection method 1 of `detect_anomalies` (statistical outlier): only runs
when the baseline spread is positive, and classifies when the z-score reaches
the threshold. -/
def detectOutlier (metric : String) (current mean var : ℚ) : Option Anomaly :=
  if 0 < var then
    let zsq := (current - mean)^2 / var
    if z_score_threshold_sq ≤ zsq then
      some ⟨metric, current, "outlier", outlierSeverity zsq,
            some zsq, some mean, some var, none, none⟩
    else none
  else none

/-- Detection method 2 of `detect_anomalies` (sudden rate of change /
trend break).  `previous` is `history[-1]`; the rate is
`|(current - previous) / previous|`, defined as `0` when `previous = 0`. -/
def detectRate (metric : String) (current : ℚ) (history : List ℚ)
    (roc_threshold : ℚ) : Option Anomaly :=
  let previous := (history.getLast?).getD 0
  let rate := if previous ≠ 0 then |(current - previous) / previous| else 0
  if roc_threshold ≤ rate then
    if 3 ≤ history.length then
      let recent_trend := (history.getLast?).getD 0 - ((history.dropLast).getLast?).getD 0
      let current_trend := current - (history.getLast?).getD 0
      if (0 < recent_trend ∧ current_trend < -recent_trend * 2) ∨
          (recent_trend < 0 ∧ -recent_trend * 2 < current_trend) then
        some ⟨metric, current, "trend_break",
              (if 1/10 ≤ rate then "high" else "medium"),
              none, none, none, some previous, some rate⟩
      else
        some ⟨metric, current, "sudden_change",
              (if 3/20 ≤ rate then "high" else if 2/25 ≤ rate then "medium" else "low"),
              none, none, none, some previous, some rate⟩
    else
      some ⟨metric, current, "sudden_change",
            (if 3/20 ≤ rate then "high" else "medium"),
            none, none, none, some previous, some rate⟩
  else none

/-- `AnomalyMonitor.detect_anomalies` for one metric: returns the detected
anomaly (or `none`) together with the updated per-metric state.  Mirrors the
source: missing or short history records the value and returns `none`; the
cooldown check records the value and returns `none`; otherwise method 1 runs,
method 2 runs only when method 1 found nothing (its severity-override guard is
then trivially true), the value is always recorded, and `last_anomaly_time` is
stamped exactly when an anomaly is returned. -/
def detect_anomalies (w : Nat) (s : MetricState) (metric : String)
    (current now roc_threshold : ℚ) : Option Anomaly × MetricState :=
  match s.history with
  | none => (none, ⟨add_metric_value w none current, s.last_anomaly_time⟩)
  | some history =>
    if history.length < 3 then
      (none, ⟨add_metric_value w (some history) current, s.last_anomaly_time⟩)
    else
      let mean := listMean history
      let var := sampleVar history
      if inCooldown s.last_anomaly_time now then
        (none, ⟨add_metric_value w (some history) current, s.last_anomaly_time⟩)
      else
        let anomaly1 := detectOutlier metric current mean var
        let anomaly :=
          if anomaly1.isNone ∧ 2 ≤ history.length then
            match detectRate metric current history roc_threshold with
            | some a2 =>
              if anomaly1.isNone ∨ a2.severity = "high" then some a2 else anomaly1
            | none => anomaly1
          else anomaly1
        (anomaly,
         ⟨add_metric_value w (some history) current,
          if anomaly.isSome then some now else s.last_anomaly_time⟩)

/-- Division with an explicit division-by-zero error, used by the
error-propagating mirror of `detect_anomalies`. -/
def checkedDiv (a b : ℚ) : Except String ℚ :=
  if b = 0 then Except.error "division by zero" else Except.ok (a / b)

/-- `statistics.mean` with its division made explicit. -/
def listMeanE (l : List ℚ) : Except String ℚ :=
  checkedDiv l.sum (l.length : ℚ)

/-- Squared `statistics.stdev` with its division made explicit. -/
def sampleVarE (l : List ℚ) : Except String ℚ := do
  let m ← listMeanE l
  checkedDiv ((l.map (fun x => (x - m)^2)).sum) ((l.length : ℚ) - 1)

/-- Detection method 1 with the z-score quotient made explicit. -/
def detectOutlierE (metric : String) (current mean var : ℚ) :
    Except String (Option Anomaly) :=
  if 0 < var then do
    let zsq ← checkedDiv ((current - mean)^2) var
    if z_score_threshold_sq ≤ zsq then
      pure (some ⟨metric, current, "outlier", outlierSeverity zsq,
            some zsq, some mean, some var, none, none⟩)
    else pure none
  else pure none

/-- Detection method 2 with the rate-of-change quotient made explicit; the
source guards it with `previous_value != 0` and uses `0` otherwise. -/
def detectRateE (metric : String) (current : ℚ) (history : List ℚ)
    (roc_threshold : ℚ) : Except String (Option Anomaly) := do
  let previous := (history.getLast?).getD 0
  let rate ← if previous ≠ 0 then do
      let q ← checkedDiv (current - previous) previous
      pure |q|
    else pure 0
  if roc_threshold ≤ rate then
    if 3 ≤ history.length then
      let recent_trend := (history.getLast?).getD 0 - ((history.dropLast).getLast?).getD 0
      let current_trend := current - (history.getLast?).getD 0
      if (0 < recent_trend ∧ current_trend < -recent_trend * 2) ∨
          (recent_trend < 0 ∧ -recent_trend * 2 < current_trend) then
        pure (some ⟨metric, current, "trend_break",
              (if 1/10 ≤ rate then "high" else "medium"),
              none, none, none, some previous, some rate⟩)
      else
        pure (some ⟨metric, current, "sudden_change",
              (if 3/20 ≤ rate then "high" else if 2/25 ≤ rate then "medium" else "low"),
              none, none, none, some previous, some rate⟩)
    else
      pure (some ⟨metric, current, "sudden_change",
            (if 3/20 ≤ rate then "high" else "medium"),
            none, none, none, some previous, some rate⟩)
  else pure none

/-- `detect_anomalies` written in an error monad where every division of the
source is `checkedDiv`.  Proving that this mirror never returns an error shows
each division site only ever runs with a nonzero divisor. -/
def detect_anomaliesE (w : Nat) (s : MetricState) (metric : String)
    (current now roc_threshold : ℚ) :
    Except String (Option Anomaly × MetricState) :=
  match s.history with
  | none => pure (none, ⟨add_metric_value w none current, s.last_anomaly_time⟩)
  | some history =>
    if history.length < 3 then
      pure (none, ⟨add_metric_value w (some history) current, s.last_anomaly_time⟩)
    else do
      let mean ← listMeanE history
      let var ← sampleVarE history
      if inCooldown s.last_anomaly_time now then
        pure (none, ⟨add_metric_value w (some history) current, s.last_anomaly_time⟩)
      else do
        let anomaly1 ← detectOutlierE metric current mean var
        let anomaly ←
          if anomaly1.isNone ∧ 2 ≤ history.length then do
            let r ← detectRateE metric current history roc_threshold
            match r with
            | some a2 =>
              pure (if anomaly1.isNone ∨ a2.severity = "high" then some a2 else anomaly1)
            | none => pure anomaly1
          else pure anomaly1
        pure (anomaly,
          ⟨add_metric_value w (some history) current,
           if anomaly.isSome then some now else s.last_anomaly_time⟩)

/-- Python `int(q)`: truncation toward zero on the exact rational value. -/
def pyInt (q : ℚ) : ℤ := Int.tdiv q.num (q.den : ℤ)

/-- The fields of the `market_context` row read by
`TriggerMonitorWorker._calculate_risk_score` and `_run_cycle`. -/
structure MarketContext where
  sentiment_score : ℤ
  price_change_24h : ℚ
  polymarket_avg_odds : ℚ
  sentiment : String
  hype_score : ℤ
deriving DecidableEq

/-- Sentiment step function of `_calculate_risk_score` (more negative net
sentiment means higher risk). -/
def sentiment_component (sentiment_score : ℤ) : ℚ :=
  if sentiment_score < -10 then 90
  else if sentiment_score < -5 then 70
  else if sentiment_score < 0 then 50
  else if sentiment_score < 5 then 30
  else 10

/-- Technical step function of `_calculate_risk_score` (larger negative 24h
price change means higher risk). -/
def technical_component (price_change : ℚ) : ℚ :=
  if price_change ≤ -5 then 100
  else if price_change ≤ -3 then 80
  else if price_change ≤ -1 then 60
  else if price_change < 0 then 40
  else if price_change < 3 then 20
  else 10

/-- Polymarket step function of `_calculate_risk_score`: divergence of the
odds from neutral 0.5, plus a `min 100` capped bonus of 20 when the odds are
collapsing below 0.3. -/
def polymarket_component (odds : ℚ) : ℚ :=
  let divergence := |odds - 1/2|
  let base : ℚ :=
    if 7/20 < divergence then 90
    else if 1/4 < divergence then 70
    else if 3/20 < divergence then 50
    else 30
  if odds < 3/10 then min 100 (base + 20) else base

/-- `TriggerMonitorWorker._calculate_risk_score`: weighted sum of the three
components (0.3 / 0.3 / 0.4), a flat +15 bonus capped at 100 when the
sentiment is `PANIC`, then `max(0, min(100, int(...)))`. -/
def calculate_risk_score (ctx : MarketContext) : ℤ :=
  let sentiment_weighted := sentiment_component ctx.sentiment_score * (3/10)
  let technical_weighted := technical_component ctx.price_change_24h * (3/10)
  let polymarket_weighted := polymarket_component ctx.polymarket_avg_odds * (4/10)
  let risk_score := sentiment_weighted + technical_weighted + polymarket_weighted
  let risk_score := if ctx.sentiment = "PANIC" then min 100 (risk_score + 15) else risk_score
  max 0 (min 100 (pyInt risk_score))

/-- Alert classes raised by `TriggerMonitorWorker._run_cycle`. -/
inductive AlertType where
  | RISK_CRITICAL
  | HYPE_EXTREME
deriving DecidableEq

/-- Threshold policy of `_run_cycle` step 4: risk is checked first. -/
def alertDecision (risk_score hype_score : ℤ) : Option AlertType :=
  if 80 ≤ risk_score then some AlertType.RISK_CRITICAL
  else if 90 ≤ hype_score then some AlertType.HYPE_EXTREME
  else none

/-- `TriggerMonitorWorker._run_cycle` in an error monad.  `getContext` models
`db.get_latest_market_context()` (its exceptions propagate to the loop's
catch-all), and `updateRiskScore` models
`db.update_market_context_risk_score`; the source wraps that call in
`try/except` and only logs a failure, so its result is inspected but never
propagated, and the threshold check always runs on the in-memory score. -/
def run_cycle (getContext : Except String (Option MarketContext))
    (updateRiskScore : ℤ → Except String Unit) :
    Except String (Option (ℤ × Option AlertType)) := do
  let ctx? ← getContext
  match ctx? with
  | none => pure none
  | some ctx =>
    let risk_score := calculate_risk_score ctx
    let _logged : Bool :=
      match updateRiskScore risk_score with
      | Except.ok _ => true
      | Except.error _ => false
    let hype_score := ctx.hype_score
    pure (some (risk_score, alertDecision risk_score hype_score))

/-- `voice_session_manager.register_session`: replaces any previous session
pointer unconditionally. -/
def register_session {S : Type} (session : S) (_current : Option S) : Option S :=
  some session

/-- `voice_session_manager.unregister_session`: clears the pointer only when
it still identifies the same session. -/
def unregister_session {S : Type} [DecidableEq S] (session : S)
    (current : Option S) : Option S :=
  if current = some session then none else current

/-- An anomaly record as seen by `AnomalyWorker._ping_agent_with_anomalies`:
the records are dicts, so beyond `severity` we track whether the optional
`delta` / `delta_pct` keys are present. -/
structure DispatchRecord where
  metric : String
  severity : String
  has_delta : Bool
  has_delta_pct : Bool
deriving DecidableEq

/-- The filter of `_ping_agent_with_anomalies`: keep the records whose
severity is `high` or `medium`; these are exactly the records put into the
`anomalies` field of the dispatched `ANOMALY_ALERT` payload. -/
def significant_anomalies (l : List DispatchRecord) : List DispatchRecord :=
  l.filter (fun a => a.severity == "high" || a.severity == "medium")

lemma foldl_dequeAppend (w : Nat) (vs : List ℚ) :
    ∀ l : List ℚ, l.length ≤ w →
      vs.foldl (dequeAppend w) l = (l ++ vs).drop (l.length + vs.length - w) := by
  induction vs with
  | nil =>
    intro l hl
    simp only [List.foldl_nil, List.append_nil, List.length_nil, Nat.add_zero]
    rw [show l.length - w = 0 by omega, List.drop_zero]
  | cons v vs ih =>
    intro l hl
    rw [List.foldl_cons, ih (dequeAppend w l v) (by simp [dequeAppend]; omega)]
    have hd : l.length + 1 - w ≤ (l ++ [v]).length := by simp
    rw [dequeAppend, ← List.drop_append_of_le_length hd, List.drop_drop]
    have harr : (l ++ [v]) ++ vs = l ++ v :: vs := by simp
    rw [harr]
    congr 1
    simp only [List.length_drop, List.length_append, List.length_cons, List.length_nil]
    omega

lemma recordMany_some (w : Nat) (vs : List ℚ) :
    ∀ l : List ℚ, recordMany w (some l) vs = some (vs.foldl (dequeAppend w) l) := by
  induction vs with
  | nil => intro l; rfl
  | cons v vs ih =>
    intro l
    show recordMany w (some (dequeAppend w l v)) vs = _
    rw [ih, List.foldl_cons]

lemma historyValues_recordMany_none (w : Nat) (vs : List ℚ) :
    historyValues (recordMany w none vs) = vs.foldl (dequeAppend w) [] := by
  cases vs with
  | nil => rfl
  | cons v vs =>
    show historyValues (recordMany w (some (dequeAppend w [] v)) vs) = _
    rw [recordMany_some, List.foldl_cons]
    rfl

/-- C3: recording any sequence of more than `capacity` samples for one metric
keeps the stored window at no more than `capacity` values at every
intermediate point, and afterwards the window is exactly the most recent
`capacity` values in recording order (oldest evicted first). -/
theorem window_bound (w : Nat) (vs : List ℚ) (_hN : w < vs.length) :
    (∀ n : Nat, (historyValues (recordMany w none (vs.take n))).length ≤ w) ∧
    historyValues (recordMany w none vs) = vs.drop (vs.length - w) := by
  constructor
  · intro n
    rw [historyValues_recordMany_none, foldl_dequeAppend w _ [] (by simp)]
    simp only [List.nil_append, List.length_drop, List.length_nil, Nat.zero_add]
    omega
  · rw [historyValues_recordMany_none, foldl_dequeAppend w _ [] (by simp)]
    simp

/-- Witness for C3 at capacity 2 and recording sequence `[1, 2, 3]`. -/
theorem window_bound_witness :
    2 < 3 ∧ historyValues (recordMany 2 none [1, 2, 3]) = [2, 3] := by
  refine ⟨by norm_num, ?_⟩
  have h := (window_bound 2 [1, 2, 3] (by norm_num)).2
  simpa using h

/-- C8: registering session B while session A is registered makes B the
canonical session unconditionally; a later `unregister(A)` is a no-op (the
pointer no longer identifies A), and `unregister(B)` then clears it. -/
theorem single_session_replace {S : Type} [DecidableEq S] (A B : S) (cur : Option S)
    (hAB : A ≠ B) :
    register_session B (register_session A cur) = some B ∧
    unregister_session A (register_session B (register_session A cur)) = some B ∧
    unregister_session B
      (unregister_session A (register_session B (register_session A cur))) = none := by
  have h2 : unregister_session A (some B) = some B := by
    simp [unregister_session, Ne.symm hAB]
  refine ⟨rfl, h2, ?_⟩
  show unregister_session B (unregister_session A (some B)) = none
  rw [h2]
  simp [unregister_session]

/-- Witness for C8 with the sessions 0 and 1 over ℕ. -/
theorem single_session_replace_witness :
    (0 : ℕ) ≠ 1 ∧
    unregister_session 0 (register_session 1 (register_session (0 : ℕ) none)) = some 1 := by
  refine ⟨by decide, ?_⟩
  exact (single_session_replace 0 1 none (by decide)).2.1

/-- C1 as stated is false on the code: `_ping_agent_with_anomalies` filters
only on severity, so a high-severity record lacking both `delta` and
`delta_pct` is dispatched; the record
`⟨"btc_price", "high", false, false⟩` is a concrete counterexample. -/
theorem dispatch_field_gate_counterexample :
    ¬ (∀ (l : List DispatchRecord) (a : DispatchRecord),
        a ∈ significant_anomalies l → a.has_delta = true ∨ a.has_delta_pct = true) := by
  intro hclaim
  have h := hclaim [⟨"btc_price", "high", false, false⟩]
    ⟨"btc_price", "high", false, false⟩ (by simp [significant_anomalies])
  simp at h

/-- C1 amended: the dispatch filter keeps exactly the records whose severity
is `high` or `medium`; presence of `delta`/`delta_pct` fields plays no role. -/
theorem dispatch_severity_gate (l : List DispatchRecord) (a : DispatchRecord) :
    a ∈ significant_anomalies l ↔
      a ∈ l ∧ (a.severity = "high" ∨ a.severity = "medium") := by
  simp [significant_anomalies, List.mem_filter]

/-- C5: the computed risk score is an integer in [0, 100] for every snapshot,
whatever the component values. -/
theorem risk_score_clamped (ctx : MarketContext) :
    0 ≤ calculate_risk_score ctx ∧ calculate_risk_score ctx ≤ 100 := by
  unfold calculate_risk_score
  exact ⟨le_max_left 0 _, max_le (by norm_num) (min_le_left _ _)⟩

lemma pyInt_hundred : pyInt 100 = 100 := by
  have h1 : (100 : ℚ).num = 100 := rfl
  have h2 : (100 : ℚ).den = 1 := rfl
  rw [pyInt, h1, h2]
  decide

/-- C6: the spec's end-to-end scenario 2 snapshot scores exactly 100. -/
theorem risk_score_scenario2 :
    calculate_risk_score ⟨-12, -6, 1/10, "PANIC", 0⟩ = 100 := by
  have h1 : sentiment_component (-12) = 90 := by norm_num [sentiment_component]
  have h2 : technical_component (-6) = 100 := by norm_num [technical_component]
  have h3 : polymarket_component (1/10) = 100 := by
    norm_num [polymarket_component, abs_of_nonpos, min_def]
  simp only [calculate_risk_score, h1, h2, h3]
  norm_num [min_def, pyInt_hundred]

/-- C9: when the risk-score write-back fails, the monitor cycle still
completes and reaches the same threshold decision, computed from the
in-memory score, as when the write-back succeeds. -/
theorem cycle_survives_write_failure (ctx : MarketContext) (e : String) :
    run_cycle (Except.ok (some ctx)) (fun _ => Except.error e) =
      Except.ok (some (calculate_risk_score ctx,
        alertDecision (calculate_risk_score ctx) ctx.hype_score)) ∧
    ∀ upd : ℤ → Except String Unit,
      run_cycle (Except.ok (some ctx)) (fun _ => Except.error e) =
        run_cycle (Except.ok (some ctx)) upd := by
  exact ⟨rfl, fun _ => rfl⟩

lemma detect_during_cooldown (w : Nat) (s : MetricState) (metric : String)
    (current now roc : ℚ) (t0 : ℚ) (h0 : s.last_anomaly_time = some t0)
    (hlt : now - t0 < anomaly_cooldown_seconds) :
    detect_anomalies w s metric current now roc =
      (none, ⟨add_metric_value w s.history current, some t0⟩) := by
  have hcool : inCooldown (some t0) now = true := by
    rw [inCooldown]
    exact decide_eq_true hlt
  rw [detect_anomalies]
  cases hh : s.history with
  | none => simp [h0]
  | some history =>
    by_cases hlen : history.length < 3
    · simp [hlen, h0]
    · simp [hlen, h0, hcool]

/-- C2: while within 60 seconds of a prior anomaly for a metric, every
`detect_anomalies` call for it returns `none` (so no two calls in the window
both return a record) while still appending the value to the history; and
once the 60-second window has fully elapsed a detection may return a record
again (shown by a concrete post-cooldown run). -/
theorem cooldown_suppression (w : Nat) (s : MetricState) (metric : String)
    (t0 t1 t2 v1 v2 roc : ℚ) (h0 : s.last_anomaly_time = some t0)
    (h1 : t1 - t0 < 60) (h2 : t2 - t0 < 60) :
    ((detect_anomalies w s metric v1 t1 roc).1 = none ∧
      (detect_anomalies w (detect_anomalies w s metric v1 t1 roc).2 metric v2 t2 roc).1
        = none) ∧
    ((detect_anomalies w s metric v1 t1 roc).2.history = add_metric_value w s.history v1 ∧
      (detect_anomalies w (detect_anomalies w s metric v1 t1 roc).2 metric v2 t2 roc).2.history
        = add_metric_value w (add_metric_value w s.history v1) v2) ∧
    (detect_anomalies 10 ⟨some [100, 100, 100], some 0⟩ "btc_price" 200 60 (1/20)).1.isSome
      = true := by
  have hr1 := detect_during_cooldown w s metric v1 t1 roc t0 h0
    (show t1 - t0 < anomaly_cooldown_seconds from h1)
  have hr2 := detect_during_cooldown w
    (⟨add_metric_value w s.history v1, some t0⟩ : MetricState) metric v2 t2 roc t0 rfl
    (show t2 - t0 < anomaly_cooldown_seconds from h2)
  rw [hr1]
  rw [hr2]
  refine ⟨⟨rfl, rfl⟩, ⟨rfl, rfl⟩, ?_⟩
  norm_num [detect_anomalies, detectOutlier, detectRate, inCooldown, listMean, sampleVar,
    anomaly_cooldown_seconds, z_score_threshold_sq, add_metric_value, dequeAppend]

/-- Witness for C2: a metric with history `[1, 2, 3]` and a prior anomaly at
time 5 is probed at times 10 and 64 (both within the 60s window). -/
theorem cooldown_suppression_witness :
    (detect_anomalies 10 ⟨some [1, 2, 3], some 5⟩ "m" 50 10 (1/20)).1 = none ∧
    (detect_anomalies 10 (detect_anomalies 10 ⟨some [1, 2, 3], some 5⟩ "m" 50 10 (1/20)).2
      "m" 60 64 (1/20)).1 = none :=
  (cooldown_suppression 10 ⟨some [1, 2, 3], some 5⟩ "m" 5 10 64 50 60 (1/20) rfl
    (by norm_num) (by norm_num)).1

lemma detect_fst_of_outlier (w : Nat) (s : MetricState) (metric : String)
    (current now roc : ℚ) (hist : List ℚ) (a : Anomaly)
    (hh : s.history = some hist) (hlen : ¬ hist.length < 3)
    (hcool : inCooldown s.last_anomaly_time now = false)
    (hout : detectOutlier metric current (listMean hist) (sampleVar hist) = some a) :
    (detect_anomalies w s metric current now roc).1 = some a := by
  rw [detect_anomalies, hh]
  simp [hlen, hcool, hout]

lemma detect_fst_of_no_outlier (w : Nat) (s : MetricState) (metric : String)
    (current now roc : ℚ) (hist : List ℚ)
    (hh : s.history = some hist) (hlen : ¬ hist.length < 3)
    (hcool : inCooldown s.last_anomaly_time now = false)
    (hout : detectOutlier metric current (listMean hist) (sampleVar hist) = none) :
    (detect_anomalies w s metric current now roc).1 =
      detectRate metric current hist roc := by
  rw [detect_anomalies, hh]
  have h2 : 2 ≤ hist.length := by omega
  cases hr : detectRate metric current hist roc with
  | none => simp [hlen, hcool, hout, h2, hr]
  | some a2 => simp [hlen, hcool, hout, h2, hr]

lemma detectOutlier_some (metric : String) (current mean var : ℚ)
    (hvar : 0 < var) (hth : z_score_threshold_sq ≤ (current - mean)^2 / var) :
    detectOutlier metric current mean var =
      some ⟨metric, current, "outlier", outlierSeverity ((current - mean)^2 / var),
            some ((current - mean)^2 / var), some mean, some var, none, none⟩ := by
  rw [detectOutlier]
  simp [hvar, hth]

lemma detectOutlier_none (metric : String) (current mean var : ℚ)
    (hth : (current - mean)^2 / var < z_score_threshold_sq) :
    detectOutlier metric current mean var = none := by
  rw [detectOutlier]
  by_cases hvar : 0 < var
  · simp [hvar, not_le.mpr hth]
  · simp [hvar]

lemma outlierSeverity_high (zsq : ℚ) (h : 3^2 ≤ zsq) :
    outlierSeverity zsq = "high" := by
  rw [outlierSeverity]
  split_ifs with h16 h9 h25 <;> first | rfl | exact absurd h h9

lemma detectRate_type (metric : String) (current : ℚ) (history : List ℚ)
    (roc : ℚ) (a : Anomaly) (h : detectRate metric current history roc = some a) :
    a.anomaly_type = "trend_break" ∨ a.anomaly_type = "sudden_change" := by
  rw [detectRate] at h
  split_ifs at h
  all_goals
    first
      | (simp only [Option.some.injEq] at h; subst h; simp)
      | (rw [ite_eq_iff] at h
         rcases h with ⟨-, h⟩ | ⟨-, h⟩ <;> (simp only [Option.some.injEq] at h; subst h; simp))

/-- C4: with at least 3 samples, positive sample deviation S and mean M, a
value at distance exactly 2.5·S from M (in the squared form
`(v - M)² = 2.5²·S²`, which covers `v = M + 2.5·S`) is classified as an
`outlier` of severity `medium` (the 2.5 boundary is inclusive); distance at
least 3·S gives severity `high`; and distance exactly 2.49·S is not
classified as an outlier — the call returns `none` or a record of a
different anomaly type (rate-of-change). -/
theorem z_score_boundary (w : Nat) (s : MetricState) (metric : String)
    (hist : List ℚ) (v now roc : ℚ)
    (hh : s.history = some hist) (hlen : 3 ≤ hist.length)
    (hcool : inCooldown s.last_anomaly_time now = false)
    (hvar : 0 < sampleVar hist) :
    ((v - listMean hist)^2 = (5/2)^2 * sampleVar hist →
      ∃ a, (detect_anomalies w s metric v now roc).1 = some a ∧
        a.anomaly_type = "outlier" ∧ a.severity = "medium") ∧
    (3^2 * sampleVar hist ≤ (v - listMean hist)^2 →
      ∃ a, (detect_anomalies w s metric v now roc).1 = some a ∧
        a.anomaly_type = "outlier" ∧ a.severity = "high") ∧
    ((v - listMean hist)^2 = (249/100)^2 * sampleVar hist →
      (detect_anomalies w s metric v now roc).1 = none ∨
      ∃ a, (detect_anomalies w s metric v now roc).1 = some a ∧
        a.anomaly_type ≠ "outlier") := by
  have hlen' : ¬ hist.length < 3 := by omega
  have hvne : sampleVar hist ≠ 0 := ne_of_gt hvar
  refine ⟨?_, ?_, ?_⟩
  · intro h1
    have hz : (v - listMean hist)^2 / sampleVar hist = (5/2)^2 := by
      rw [h1, mul_div_assoc, div_self hvne, mul_one]
    have hth : z_score_threshold_sq ≤ (v - listMean hist)^2 / sampleVar hist := by
      rw [hz, z_score_threshold_sq]
    refine ⟨_, detect_fst_of_outlier w s metric v now roc hist _ hh hlen' hcool
      (detectOutlier_some metric v (listMean hist) (sampleVar hist) hvar hth), rfl, ?_⟩
    show outlierSeverity ((v - listMean hist)^2 / sampleVar hist) = "medium"
    rw [hz, outlierSeverity]
    norm_num
  · intro h9
    have hz9 : 3^2 ≤ (v - listMean hist)^2 / sampleVar hist :=
      (le_div_iff₀ hvar).mpr h9
    have hth : z_score_threshold_sq ≤ (v - listMean hist)^2 / sampleVar hist := by
      refine le_trans ?_ hz9
      rw [z_score_threshold_sq]
      norm_num
    refine ⟨_, detect_fst_of_outlier w s metric v now roc hist _ hh hlen' hcool
      (detectOutlier_some metric v (listMean hist) (sampleVar hist) hvar hth), rfl, ?_⟩
    exact outlierSeverity_high _ hz9
  · intro h249
    have hz : (v - listMean hist)^2 / sampleVar hist = (249/100)^2 := by
      rw [h249, mul_div_assoc, div_self hvne, mul_one]
    have hlt : (v - listMean hist)^2 / sampleVar hist < z_score_threshold_sq := by
      rw [hz, z_score_threshold_sq]
      norm_num
    have hres := detect_fst_of_no_outlier w s metric v now roc hist hh hlen' hcool
      (detectOutlier_none metric v (listMean hist) (sampleVar hist) hlt)
    cases hr : detectRate metric v hist roc with
    | none => exact Or.inl (hres.trans hr)
    | some a =>
      refine Or.inr ⟨a, hres.trans hr, ?_⟩
      rcases detectRate_type metric v hist roc a hr with ht | ht <;> simp [ht]

/-- Witness for C4 at history `[1, 2, 3]` (mean 2, sample variance 1) and
current value 4.5 = 2 + 2.5·1. -/
theorem z_score_boundary_witness :
    ∃ a, (detect_anomalies 10 ⟨some [1, 2, 3], none⟩ "m" (9/2) 0 (1/20)).1 = some a ∧
      a.anomaly_type = "outlier" ∧ a.severity = "medium" := by
  have h := (z_score_boundary 10 ⟨some [1, 2, 3], none⟩ "m" [1, 2, 3] (9/2) 0 (1/20)
    rfl (by norm_num) rfl (by norm_num [sampleVar, listMean])).1
  exact h (by norm_num [sampleVar, listMean])

lemma pyInt_eq_floor (q : ℚ) (hq : 0 ≤ q) : pyInt q = ⌊q⌋ := by
  have hnum : 0 ≤ q.num := Rat.num_nonneg.mpr hq
  obtain ⟨m, hm⟩ := Int.eq_ofNat_of_zero_le hnum
  rw [Rat.floor_def, pyInt, hm]
  rfl

lemma pyInt_natCast_div_ten (n : ℕ) : pyInt ((n : ℚ)/10) = (n : ℤ)/10 := by
  rw [pyInt_eq_floor _ (by positivity)]
  rw [show ((n : ℚ) = ((n : ℤ) : ℚ)) by push_cast; ring,
    show ((10 : ℚ) = ((10 : ℕ) : ℚ)) by norm_num]
  rw [Rat.floor_intCast_div_natCast]
  norm_num

lemma sentiment_component_cases (s : ℤ) :
    ∃ a : ℕ, a ≤ 90 ∧ sentiment_component s = (a : ℚ) := by
  rw [sentiment_component]
  split_ifs
  exacts [⟨90, by norm_num⟩, ⟨70, by norm_num⟩, ⟨50, by norm_num⟩,
    ⟨30, by norm_num⟩, ⟨10, by norm_num⟩]

lemma technical_component_cases (p : ℚ) :
    ∃ b : ℕ, b ≤ 100 ∧ technical_component p = (b : ℚ) := by
  rw [technical_component]
  split_ifs
  exacts [⟨100, by norm_num⟩, ⟨80, by norm_num⟩, ⟨60, by norm_num⟩,
    ⟨40, by norm_num⟩, ⟨20, by norm_num⟩, ⟨10, by norm_num⟩]

lemma polymarket_component_cases (o : ℚ) :
    ∃ c : ℕ, c ≤ 100 ∧ polymarket_component o = (c : ℚ) := by
  rw [polymarket_component]
  split_ifs
  exacts [⟨100, by norm_num [min_def]⟩, ⟨90, by norm_num [min_def]⟩,
    ⟨70, by norm_num [min_def]⟩, ⟨50, by norm_num [min_def]⟩,
    ⟨90, by norm_num⟩, ⟨70, by norm_num⟩, ⟨50, by norm_num⟩, ⟨30, by norm_num⟩]

lemma weighted_sum_form (ctx : MarketContext) :
    ∃ n : ℕ, n ≤ 970 ∧
      sentiment_component ctx.sentiment_score * (3/10) +
      technical_component ctx.price_change_24h * (3/10) +
      polymarket_component ctx.polymarket_avg_odds * (4/10) = (n : ℚ)/10 := by
  obtain ⟨a, ha, hA⟩ := sentiment_component_cases ctx.sentiment_score
  obtain ⟨b, hb, hB⟩ := technical_component_cases ctx.price_change_24h
  obtain ⟨c, hc, hC⟩ := polymarket_component_cases ctx.polymarket_avg_odds
  refine ⟨3*a + 3*b + 4*c, by omega, ?_⟩
  rw [hA, hB, hC]
  push_cast
  ring

lemma pyInt_natCast (n : ℕ) : pyInt ((n : ℕ) : ℚ) = n := by
  rw [pyInt, Rat.num_natCast, Rat.den_natCast]
  show Int.tdiv (Int.ofNat n) (Int.ofNat 1) = Int.ofNat n
  simp [Int.tdiv]

/-- C7: for a snapshot whose sentiment is not PANIC, switching the sentiment
to PANIC (all other fields identical) raises the risk score by exactly 15,
except that the PANIC score is clamped at 100 when the sum would exceed
100. -/
theorem panic_bonus (ctx : MarketContext) (hns : ctx.sentiment ≠ "PANIC") :
    (calculate_risk_score ctx + 15 ≤ 100 →
      calculate_risk_score ⟨ctx.sentiment_score, ctx.price_change_24h,
        ctx.polymarket_avg_odds, "PANIC", ctx.hype_score⟩ =
        calculate_risk_score ctx + 15) ∧
    (100 < calculate_risk_score ctx + 15 →
      calculate_risk_score ⟨ctx.sentiment_score, ctx.price_change_24h,
        ctx.polymarket_avg_odds, "PANIC", ctx.hype_score⟩ = 100) := by
  obtain ⟨n, hn, hbase⟩ := weighted_sum_form ctx
  have ha : calculate_risk_score ctx = max 0 (min 100 ((n : ℤ)/10)) := by
    simp only [calculate_risk_score]
    rw [if_neg hns, hbase, pyInt_natCast_div_ten]
  rcases le_or_lt n 850 with h850 | h850
  · have hle : (n : ℚ)/10 + 15 ≤ 100 := by
      have hq : (n : ℚ) ≤ 850 := by exact_mod_cast h850
      linarith
    have hb : calculate_risk_score ⟨ctx.sentiment_score, ctx.price_change_24h,
        ctx.polymarket_avg_odds, "PANIC", ctx.hype_score⟩ =
        max 0 (min 100 (((n + 150 : ℕ) : ℤ)/10)) := by
      simp only [calculate_risk_score, if_true]
      rw [hbase, min_eq_right hle,
        show (n : ℚ)/10 + 15 = ((n + 150 : ℕ) : ℚ)/10 by push_cast; ring,
        pyInt_natCast_div_ten]
    refine ⟨fun hcond => ?_, fun hcond => ?_⟩
    · rw [ha] at hcond
      rw [hb, ha]
      omega
    · rw [ha] at hcond
      rw [hb]
      omega
  · have hge : (100 : ℚ) ≤ (n : ℚ)/10 + 15 := by
      have hq : (850 : ℚ) ≤ (n : ℚ) := by exact_mod_cast h850.le
      linarith
    have hb : calculate_risk_score ⟨ctx.sentiment_score, ctx.price_change_24h,
        ctx.polymarket_avg_odds, "PANIC", ctx.hype_score⟩ = 100 := by
      simp only [calculate_risk_score, if_true]
      rw [hbase, min_eq_left hge, pyInt_hundred]
      norm_num
    refine ⟨fun hcond => ?_, fun hcond => ?_⟩
    · rw [ha] at hcond
      rw [hb, ha]
      omega
    · rw [hb]

/-- Witness for C7 at the snapshot (0, 0, 0.5, BULLISH, 0), which scores 27;
its PANIC twin scores 42 = 27 + 15. -/
theorem panic_bonus_witness :
    (⟨0, 0, 1/2, "BULLISH", 0⟩ : MarketContext).sentiment ≠ "PANIC" ∧
    calculate_risk_score ⟨0, 0, 1/2, "PANIC", 0⟩ =
      calculate_risk_score ⟨0, 0, 1/2, "BULLISH", 0⟩ + 15 := by
  have hp : pyInt 27 = 27 := by
    have h1 : (27 : ℚ).num = 27 := rfl
    have h2 : (27 : ℚ).den = 1 := rfl
    rw [pyInt, h1, h2]
    decide
  have hBP : ("BULLISH" : String) ≠ "PANIC" := by decide
  have h27 : calculate_risk_score ⟨0, 0, 1/2, "BULLISH", 0⟩ = 27 := by
    simp only [calculate_risk_score]
    norm_num [sentiment_component, technical_component, polymarket_component, hp,
      hBP, min_def, max_def]
  refine ⟨by decide, ?_⟩
  exact (panic_bonus ⟨0, 0, 1/2, "BULLISH", 0⟩ (by decide)).1 (by rw [h27]; norm_num)

lemma checkedDiv_ok (a b : ℚ) (h : b ≠ 0) : checkedDiv a b = Except.ok (a / b) := by
  rw [checkedDiv, if_neg h]

lemma exceptBind_ok {α β : Type} (a : α) (f : α → Except String β) :
    (Except.ok a >>= f) = f a := rfl

lemma listMeanE_ok (l : List ℚ) (h : 0 < l.length) :
    listMeanE l = Except.ok (listMean l) := by
  rw [listMeanE, listMean, checkedDiv_ok]
  exact_mod_cast Nat.pos_iff_ne_zero.mp h

lemma sampleVarE_ok (l : List ℚ) (h : 2 ≤ l.length) :
    sampleVarE l = Except.ok (sampleVar l) := by
  rw [sampleVarE, listMeanE_ok l (by omega)]
  show checkedDiv _ _ = _
  rw [sampleVar, checkedDiv_ok]
  have hq : (2 : ℚ) ≤ (l.length : ℚ) := by exact_mod_cast h
  intro hc
  have : (l.length : ℚ) = 1 := by linarith
  linarith

lemma detectOutlierE_ok (metric : String) (current mean var : ℚ) :
    detectOutlierE metric current mean var =
      Except.ok (detectOutlier metric current mean var) := by
  rw [detectOutlierE, detectOutlier]
  by_cases hvar : 0 < var
  · simp only [if_pos hvar]
    rw [checkedDiv_ok _ _ (ne_of_gt hvar)]
    rw [exceptBind_ok]
    by_cases h2 : z_score_threshold_sq ≤ (current - mean)^2 / var
    · simp [pure, Except.pure, h2]
    · simp [pure, Except.pure, h2]
  · simp [hvar, pure, Except.pure]

lemma exceptPureBind {α β : Type} (a : α) (f : α → Except String β) :
    ((pure a : Except String α) >>= f) = f a := rfl

lemma detectRateE_ok (metric : String) (current : ℚ) (history : List ℚ) (roc : ℚ) :
    detectRateE metric current history roc =
      Except.ok (detectRate metric current history roc) := by
  rw [detectRateE, detectRate]
  by_cases hp : (history.getLast?).getD 0 ≠ 0
  · simp only [if_pos hp]
    rw [checkedDiv_ok _ _ hp, exceptBind_ok, exceptPureBind]
    split_ifs <;> rfl
  · simp only [if_neg hp]
    rw [exceptPureBind]
    split_ifs <;> rfl

/-- C10: `detect_anomalies` never divides by zero.  Its mirror in an error
monad, where every division of the source (`statistics.mean`,
`statistics.stdev`, the z-score quotient guarded by `stdev > 0`, and the
rate-of-change quotient guarded by `previous != 0`) raises an explicit error
on a zero divisor, always returns `ok` of the plain result: the function is
total on all rational inputs. -/
theorem detect_no_division_by_zero (w : Nat) (s : MetricState) (metric : String)
    (current now roc : ℚ) :
    detect_anomaliesE w s metric current now roc =
      Except.ok (detect_anomalies w s metric current now roc) := by
  rw [detect_anomaliesE, detect_anomalies]
  cases hh : s.history with
  | none => rfl
  | some history =>
    by_cases hlen : history.length < 3
    · simp only [if_pos hlen]
      rfl
    · simp only [if_neg hlen]
      rw [listMeanE_ok history (by omega), exceptBind_ok,
        sampleVarE_ok history (by omega), exceptBind_ok]
      by_cases hcool : inCooldown s.last_anomaly_time now = true
      · simp only [if_pos hcool]
        rfl
      · simp only [if_neg hcool]
        rw [detectOutlierE_ok, exceptBind_ok]
        by_cases hif : (detectOutlier metric current (listMean history)
            (sampleVar history)).isNone ∧ 2 ≤ history.length
        · simp only [if_pos hif]
          rw [detectRateE_ok, exceptBind_ok]
          cases hr : detectRate metric current history roc with
          | none => rfl
          | some a2 => rfl
        · simp only [if_neg hif]
          rfl
